import Mathlib

/-!
Verification of the task-manager core of `src/task.js` (a client-side to-do
list application).  The JavaScript `Storage` module and `TaskManager` class
are shallowly embedded as pure Lean functions: `localStorage` becomes an
explicit `StorageState` value threaded through the operations, `Date.now()`
becomes an explicit `now : Nat` argument, and the in-place mutations of
`this.tasks` become functional updates of a `TaskManager` record.  JSON
serialization of the snapshot is modelled as storing the structured value
itself: for the plain record shapes involved, `JSON.parse (JSON.stringify x)`
is the identity.  `Array.prototype.sort` with a comparator is modelled by a
stable insertion sort (`arraySort`), matching the ECMAScript requirement that
`sort` be stable; a comparator result of `NaN` is treated as `+0` per the
`SortCompare` specification, which the Boolean comparators below reproduce.
-/

namespace TodoApp

/-- A task record, with the exact fields pushed by `addTask` and by the
sample-data bootstrap in `task.js`. -/
structure Task where
  id : Nat
  title : String
  completed : Bool
  priority : String
  dueDate : String
  dateCreated : Nat
deriving DecidableEq

/-- The filter state `{ status, priority }`; a `null` priority is `none`. -/
structure Filters where
  status : String
  priority : Option String
deriving DecidableEq

/-- The snapshot object saved under the `todoAppData` storage key. -/
structure SavedData where
  tasks : List Task
  filters : Filters
  sortBy : String
deriving DecidableEq

/-- The `localStorage` contents used by the app: the snapshot key
(`todoAppData`) and the theme key (`todoAppTheme`). -/
structure StorageState where
  data : Option SavedData
  theme : Option String
deriving DecidableEq

/-- The result object returned by `TaskManager.addTask`. -/
structure AddResult where
  success : Bool
  error : Option String
deriving DecidableEq

/-- `Storage.saveData(data)`: writes the snapshot under the snapshot key. -/
def Storage.saveData (s : StorageState) (d : SavedData) : StorageState :=
  { s with data := some d }

/-- `Storage.loadData()`: reads the snapshot back (`null` becomes `none`). -/
def Storage.loadData (s : StorageState) : Option SavedData :=
  s.data

/-- The two seed tasks built by `Storage.initializeSampleData`; the calls to
`Date.now()` during one synchronous bootstrap are modelled by a single
timestamp `now`. -/
def sampleTasks (now : Nat) : List Task :=
  [{ id := now + 1, title := "Welcome to your task list!", completed := false,
     priority := "high", dueDate := "", dateCreated := now },
   { id := now + 2, title := "Double-click a task to edit", completed := false,
     priority := "medium", dueDate := "", dateCreated := now + 1 }]

/-- `Storage.initializeSampleData()`: when no snapshot is stored, persists the
two seed tasks with the default filter and sort state; otherwise leaves the
store untouched. -/
def Storage.initializeSampleData (s : StorageState) (now : Nat) : StorageState :=
  match Storage.loadData s with
  | none => Storage.saveData s
      { tasks := sampleTasks now,
        filters := { status := "all", priority := none },
        sortBy := "custom" }
  | some _ => s

/-- Drop leading whitespace characters from a character list. -/
def dropLeadingWs : List Char → List Char
  | [] => []
  | c :: cs => if c.isWhitespace then dropLeadingWs cs else c :: cs

/-- `String.prototype.trim`: strip whitespace from both ends. -/
def jsTrim (s : String) : String :=
  ⟨List.reverse (dropLeadingWs (List.reverse (dropLeadingWs s.data)))⟩

/-- `String.prototype.toLowerCase`, character by character. -/
def jsToLower (s : String) : String :=
  ⟨s.data.map Char.toLower⟩

/-- `hay.startsWith(pat)` on character lists. -/
def listStartsWith : List Char → List Char → Bool
  | _, [] => true
  | [], _ :: _ => false
  | c :: cs, p :: ps => c == p && listStartsWith cs ps

/-- `hay.includes(pat)` on character lists: a match starting at some
position.  The empty pattern matches everywhere, as in JavaScript. -/
def listIncludes : List Char → List Char → Bool
  | [], pat => pat.isEmpty
  | c :: cs, pat => listStartsWith (c :: cs) pat || listIncludes cs pat

/-- `String.prototype.includes`: substring containment. -/
def strIncludes (hay pat : String) : Bool :=
  listIncludes hay.data pat.data

/-- The `TaskManager` state: the task collection plus view state.  The
search query is a plain field and is never part of the saved snapshot. -/
structure TaskManager where
  tasks : List Task
  filters : Filters
  sortBy : String
  searchQuery : String
deriving DecidableEq

/-- The `TaskManager` constructor: loads the snapshot, falling back to the
defaults on a missing snapshot.  The `data?.sortBy || 'custom'` fallback also
fires on an empty (falsy) stored string, which the `if` reproduces; the
`tasks` array and `filters` object are always truthy when present. -/
def TaskManager.init (s : StorageState) : TaskManager :=
  match Storage.loadData s with
  | some d =>
      { tasks := d.tasks,
        filters := d.filters,
        sortBy := if d.sortBy = "" then "custom" else d.sortBy,
        searchQuery := "" }
  | none =>
      { tasks := [],
        filters := { status := "all", priority := none },
        sortBy := "custom",
        searchQuery := "" }

/-- `TaskManager.save()`: persists the tasks, filters and sort mode (and not
the search query) as one snapshot. -/
def TaskManager.save (m : TaskManager) (s : StorageState) : StorageState :=
  Storage.saveData s { tasks := m.tasks, filters := m.filters, sortBy := m.sortBy }

/-- `TaskManager.addTask(title, dueDate, priority)`: rejects a title that is
blank after trimming; otherwise pushes a new task (id and dateCreated both
from `Date.now()`, modelled by `now`) and saves. -/
def TaskManager.addTask (m : TaskManager) (s : StorageState)
    (title dueDate priority : String) (now : Nat) :
    AddResult × TaskManager × StorageState :=
  if jsTrim title = "" then
    ({ success := false, error := some "Task title cannot be empty" }, m, s)
  else
    let m' : TaskManager :=
      { m with tasks := m.tasks ++
          [{ id := now, title := jsTrim title, completed := false,
             priority := priority, dueDate := dueDate, dateCreated := now }] }
    ({ success := true, error := none }, m', m'.save s)

/-- `TaskManager.removeTask(id)`: keeps the tasks whose id differs, saves. -/
def TaskManager.removeTask (m : TaskManager) (s : StorageState) (id : Nat) :
    TaskManager × StorageState :=
  let m' : TaskManager := { m with tasks := m.tasks.filter fun t => t.id != id }
  (m', m'.save s)

/-- Flip `completed` on the first task with the given id, if any: the model of
`tasks.find(t => t.id === id)` followed by the in-place `task.completed`
assignment. -/
def toggleFirst (id : Nat) : List Task → List Task
  | [] => []
  | t :: ts =>
      if t.id = id then { t with completed := !t.completed } :: ts
      else t :: toggleFirst id ts

/-- `TaskManager.toggleTask(id)`: flips the matching task if present and
saves unconditionally. -/
def TaskManager.toggleTask (m : TaskManager) (s : StorageState) (id : Nat) :
    TaskManager × StorageState :=
  let m' : TaskManager := { m with tasks := toggleFirst id m.tasks }
  (m', m'.save s)

/-- `TaskManager.setSearchQuery(query)`: updates the query; does not save. -/
def TaskManager.setSearchQuery (m : TaskManager) (query : String) : TaskManager :=
  { m with searchQuery := query }

/-- `TaskManager.setSortBy(sortBy)`: updates the sort mode and saves. -/
def TaskManager.setSortBy (m : TaskManager) (s : StorageState) (sortBy : String) :
    TaskManager × StorageState :=
  let m' : TaskManager := { m with sortBy := sortBy }
  (m', m'.save s)

/-- `TaskManager.setFilter(type, value)`: two independent `if`s, one per
filter kind; the priority branch toggles (clears when re-selecting the
current value).  Saves. -/
def TaskManager.setFilter (m : TaskManager) (s : StorageState) (ty v : String) :
    TaskManager × StorageState :=
  let f := m.filters
  let f := if ty = "status" then { f with status := v } else f
  let f := if ty = "priority" then
      { f with priority := if f.priority = some v then none else some v }
    else f
  let m' : TaskManager := { m with filters := f }
  (m', m'.save s)

/-- Stable insertion of one element with respect to a Boolean "does not come
after" test: `le a b` means the comparator on `(a, b)` returned `≤ 0`. -/
def ordInsert {α : Type} (le : α → α → Bool) (a : α) : List α → List α
  | [] => [a]
  | b :: l => if le a b then a :: b :: l else b :: ordInsert le a l

/-- Stable sort: the model of `Array.prototype.sort(cmp)`, which ECMAScript
requires to be stable.  `le a b` holds when `cmp(a, b) ≤ 0`. -/
def arraySort {α : Type} (le : α → α → Bool) : List α → List α
  | [] => []
  | a :: l => ordInsert le a (arraySort le l)

/-- The `dateCreated` comparator `(a, b) => b.dateCreated - a.dateCreated`:
the result is `≤ 0` exactly when `b.dateCreated ≤ a.dateCreated`. -/
def dateCreatedLe (a b : Task) : Bool :=
  b.dateCreated ≤ a.dateCreated

/-- The rank object `{ high: 0, medium: 1, low: 2 }`: property lookup yields
`undefined` (here `none`) for any other key. -/
def priorityOrderMap (p : String) : Option Nat :=
  if p = "high" then some 0
  else if p = "medium" then some 1
  else if p = "low" then some 2
  else none

/-- The priority comparator `(a, b) => order[a.priority] - order[b.priority]`:
on two ranked priorities the result is `≤ 0` exactly when the ranks are
ordered; any `undefined` operand makes the subtraction `NaN`, which
`SortCompare` coerces to `+0`, i.e. "do not swap". -/
def priorityLe (a b : Task) : Bool :=
  match priorityOrderMap a.priority, priorityOrderMap b.priority with
  | some x, some y => x ≤ y
  | some _, none => true
  | none, _ => true

/-- The three filter stages of `getFilteredTasks`, in source order: search
(skipped when the query is the empty, falsy string), status, priority
(skipped when the stored filter is `null` or the falsy empty string). -/
def applyFilters (m : TaskManager) : List Task :=
  let list := m.tasks
  let list := if m.searchQuery = "" then list else
    list.filter fun t => strIncludes (jsToLower t.title) (jsToLower m.searchQuery)
  let list := if m.filters.status = "active" then
      list.filter (fun t => !t.completed)
    else list
  let list := if m.filters.status = "completed" then
      list.filter (fun t => t.completed)
    else list
  match m.filters.priority with
  | some p => if p = "" then list else list.filter fun t => t.priority == p
  | none => list

/-- `TaskManager.getFilteredTasks()`: filter stages, then the sort stage
selected by the sort mode (any other mode, `custom` included, sorts
nothing). -/
def TaskManager.getFilteredTasks (m : TaskManager) : List Task :=
  let list := applyFilters m
  let list := if m.sortBy = "dateCreated" then arraySort dateCreatedLe list else list
  let list := if m.sortBy = "priority" then arraySort priorityLe list else list
  list

/-- The rank of a ranked priority, as the specification states it
(`high = 0`, `medium = 1`, `low = 2`). -/
def priorityRank (p : String) : Nat :=
  if p = "high" then 0 else if p = "medium" then 1 else 2

/-- The priority enum of the data model: the values the UI can store. -/
def validPriority (p : String) : Prop :=
  p = "high" ∨ p = "medium" ∨ p = "low"

instance (p : String) : Decidable (validPriority p) := by
  unfold validPriority
  infer_instance

/-- Fixture task A of the specification example: high priority, created first. -/
def exTaskA : Task :=
  { id := 1, title := "Task A", completed := false, priority := "high",
    dueDate := "", dateCreated := 10 }

/-- Fixture task B of the specification example: low priority, created later. -/
def exTaskB : Task :=
  { id := 2, title := "Task B", completed := false, priority := "low",
    dueDate := "", dateCreated := 20 }

/-- A manager holding the two example tasks in insertion order, with no
filters and no search, under the given sort mode. -/
def sortEx (mode : String) : TaskManager :=
  { tasks := [exTaskA, exTaskB], filters := { status := "all", priority := none },
    sortBy := mode, searchQuery := "" }

/-- Witness fixture: a task matching search "milk", active status and high
priority simultaneously. -/
def wTask : Task :=
  { id := 7, title := "Buy milk", completed := false, priority := "high",
    dueDate := "", dateCreated := 3 }

/-- Witness fixture: a manager with all three predicates active. -/
def wManager : TaskManager :=
  { tasks := [wTask,
      { id := 8, title := "Walk dog", completed := true, priority := "low",
        dueDate := "", dateCreated := 4 }],
    filters := { status := "active", priority := some "high" },
    sortBy := "custom", searchQuery := "milk" }

/-- An empty manager in the default state, as after a first construction with
no snapshot. -/
def emptyManager : TaskManager :=
  { tasks := [], filters := { status := "all", priority := none },
    sortBy := "custom", searchQuery := "" }

/-- An empty store: no snapshot, no theme. -/
def emptyStore : StorageState :=
  { data := none, theme := none }

/-- Fixture for the setFilter counterexample: the priority filter is already
`high`. -/
def prioHighManager : TaskManager :=
  { tasks := [], filters := { status := "all", priority := some "high" },
    sortBy := "custom", searchQuery := "" }

/-- The states of the app reachable from a fresh install: the bootstrap
(sample-data initialization on an empty store, then construction), followed
by any sequence of manager operations.  The `add` constructor carries the
timing assumption the code relies on for fresh ids: the `Date.now()` value of
an add is no existing task's id. -/
inductive Reachable : TaskManager → StorageState → Prop
  | boot (now : Nat) :
      Reachable (TaskManager.init (Storage.initializeSampleData emptyStore now))
        (Storage.initializeSampleData emptyStore now)
  | add (m : TaskManager) (s : StorageState) (title dueDate priority : String)
      (now : Nat) (h : Reachable m s) (hfresh : ∀ t ∈ m.tasks, t.id ≠ now) :
      Reachable (m.addTask s title dueDate priority now).2.1
        (m.addTask s title dueDate priority now).2.2
  | remove (m : TaskManager) (s : StorageState) (id : Nat) (h : Reachable m s) :
      Reachable (m.removeTask s id).1 (m.removeTask s id).2
  | toggle (m : TaskManager) (s : StorageState) (id : Nat) (h : Reachable m s) :
      Reachable (m.toggleTask s id).1 (m.toggleTask s id).2
  | search (m : TaskManager) (s : StorageState) (q : String) (h : Reachable m s) :
      Reachable (m.setSearchQuery q) s
  | sortSet (m : TaskManager) (s : StorageState) (v : String) (h : Reachable m s) :
      Reachable (m.setSortBy s v).1 (m.setSortBy s v).2
  | filterSet (m : TaskManager) (s : StorageState) (ty v : String)
      (h : Reachable m s) :
      Reachable (m.setFilter s ty v).1 (m.setFilter s ty v).2

/-- The storage and manager right after a fresh bootstrap at time 0. -/
def bootStore : StorageState := Storage.initializeSampleData emptyStore 0

/-- The manager constructed from the freshly bootstrapped store. -/
def bootManager : TaskManager := TaskManager.init bootStore

/-- A first add performed at millisecond 5. -/
def addOnce : AddResult × TaskManager × StorageState :=
  bootManager.addTask bootStore "first errand" "" "medium" 5

/-- A second add performed within the same millisecond 5. -/
def addTwice : AddResult × TaskManager × StorageState :=
  addOnce.2.1.addTask addOnce.2.2 "second errand" "" "medium" 5

/-!  ## Generic facts about the stable sort model  -/

theorem mem_ordInsert {α : Type} (le : α → α → Bool) (a b : α) (l : List α) :
    b ∈ ordInsert le a l ↔ b = a ∨ b ∈ l := by
  induction l with
  | nil => simp [ordInsert]
  | cons c cs ih =>
      by_cases h : le a c = true
      · simp [ordInsert, h]
      · simp only [ordInsert, if_neg h, List.mem_cons, ih]
        tauto

theorem perm_ordInsert {α : Type} (le : α → α → Bool) (a : α) (l : List α) :
    List.Perm (ordInsert le a l) (a :: l) := by
  induction l with
  | nil => exact List.Perm.refl _
  | cons c cs ih =>
      by_cases h : le a c = true
      · simp [ordInsert, h]
      · simp only [ordInsert, if_neg h]
        exact List.Perm.trans (List.Perm.cons c ih) (List.Perm.swap a c cs)

theorem perm_arraySort {α : Type} (le : α → α → Bool) (l : List α) :
    List.Perm (arraySort le l) l := by
  induction l with
  | nil => exact List.Perm.refl _
  | cons a as ih =>
      exact List.Perm.trans (perm_ordInsert le a (arraySort le as))
        (List.Perm.cons a ih)

theorem mem_arraySort {α : Type} (le : α → α → Bool) (b : α) (l : List α) :
    b ∈ arraySort le l ↔ b ∈ l :=
  (perm_arraySort le l).mem_iff

theorem pairwise_ordInsert {α : Type} (le : α → α → Bool) (a : α) (l : List α)
    (htot : ∀ b ∈ l, le a b = true ∨ le b a = true)
    (htr : ∀ b ∈ l, ∀ c ∈ l, le a b = true → le b c = true → le a c = true)
    (hp : List.Pairwise (fun x y => le x y = true) l) :
    List.Pairwise (fun x y => le x y = true) (ordInsert le a l) := by
  induction l with
  | nil => simp [ordInsert]
  | cons b bs ih =>
      rcases List.pairwise_cons.mp hp with ⟨hb, hbs⟩
      by_cases h : le a b = true
      · simp only [ordInsert, if_pos h]
        refine List.pairwise_cons.mpr ⟨?_, hp⟩
        intro c hc
        rcases List.mem_cons.mp hc with rfl | hc
        · exact h
        · exact htr b (List.mem_cons_self b bs) c (List.mem_cons_of_mem b hc) h
            (hb c hc)
      · simp only [ordInsert, if_neg h]
        refine List.pairwise_cons.mpr ⟨?_, ?_⟩
        · intro c hc
          rcases (mem_ordInsert le a c bs).mp hc with rfl | hc
          · rcases htot b (List.mem_cons_self b bs) with h' | h'
            · exact absurd h' h
            · exact h'
          · exact hb c hc
        · exact ih (fun c hc => htot c (List.mem_cons_of_mem b hc))
            (fun c hc d hd =>
              htr c (List.mem_cons_of_mem b hc) d (List.mem_cons_of_mem b hd)) hbs

theorem pairwise_arraySort {α : Type} (le : α → α → Bool) (l : List α)
    (htot : ∀ a ∈ l, ∀ b ∈ l, le a b = true ∨ le b a = true)
    (htr : ∀ a ∈ l, ∀ b ∈ l, ∀ c ∈ l,
      le a b = true → le b c = true → le a c = true) :
    List.Pairwise (fun x y => le x y = true) (arraySort le l) := by
  induction l with
  | nil => simp [arraySort]
  | cons a as ih =>
      have hsub : ∀ x ∈ arraySort le as, x ∈ as :=
        fun x hx => (mem_arraySort le x as).mp hx
      refine pairwise_ordInsert le a (arraySort le as) ?_ ?_ ?_
      · intro b hb
        exact htot a (List.mem_cons_self a as) b (List.mem_cons_of_mem a (hsub b hb))
      · intro b hb c hc
        exact htr a (List.mem_cons_self a as) b (List.mem_cons_of_mem a (hsub b hb))
          c (List.mem_cons_of_mem a (hsub c hc))
      · exact ih
          (fun x hx y hy =>
            htot x (List.mem_cons_of_mem a hx) y (List.mem_cons_of_mem a hy))
          (fun x hx y hy z hz =>
            htr x (List.mem_cons_of_mem a hx) y (List.mem_cons_of_mem a hy)
              z (List.mem_cons_of_mem a hz))

/-!  ## The filter stages  -/

theorem ite_filter_sublist {c : Prop} [Decidable c] (p : Task → Bool)
    (l : List Task) : List.Sublist (if c then List.filter p l else l) l := by
  split
  · exact List.filter_sublist l
  · exact List.Sublist.refl l

theorem ite_filter_sublist' {c : Prop} [Decidable c] (p : Task → Bool)
    (l : List Task) : List.Sublist (if c then l else List.filter p l) l := by
  split
  · exact List.Sublist.refl l
  · exact List.filter_sublist l

theorem applyFilters_sublist (m : TaskManager) :
    List.Sublist (applyFilters m) m.tasks := by
  unfold applyFilters
  cases hp : m.filters.priority with
  | none =>
      exact (ite_filter_sublist _ _).trans
        ((ite_filter_sublist _ _).trans (ite_filter_sublist' _ _))
  | some p =>
      exact (ite_filter_sublist' _ _).trans ((ite_filter_sublist _ _).trans
        ((ite_filter_sublist _ _).trans (ite_filter_sublist' _ _)))

theorem mem_applyFilters (m : TaskManager) (t : Task)
    (hq : m.filters.priority ≠ some "") :
    t ∈ applyFilters m ↔
      t ∈ m.tasks ∧
      (m.searchQuery ≠ "" →
        strIncludes (jsToLower t.title) (jsToLower m.searchQuery) = true) ∧
      (m.filters.status = "active" → t.completed = false) ∧
      (m.filters.status = "completed" → t.completed = true) ∧
      (∀ p, m.filters.priority = some p → t.priority = p) := by
  unfold applyFilters
  cases hp : m.filters.priority with
  | none =>
      by_cases h1 : m.searchQuery = "" <;>
        by_cases h2 : m.filters.status = "active" <;>
        by_cases h3 : m.filters.status = "completed" <;>
        simp_all [List.mem_filter] <;> tauto
  | some p =>
      have hpe : ¬ p = "" := by
        intro h
        exact hq (by rw [hp, h])
      by_cases h1 : m.searchQuery = "" <;>
        by_cases h2 : m.filters.status = "active" <;>
        by_cases h3 : m.filters.status = "completed" <;>
        simp_all [List.mem_filter] <;> tauto

theorem getFilteredTasks_subset (m : TaskManager) (t : Task)
    (h : t ∈ m.getFilteredTasks) : t ∈ m.tasks := by
  unfold TaskManager.getFilteredTasks at h
  have hsub := (applyFilters_sublist m).subset
  by_cases h1 : m.sortBy = "dateCreated" <;> by_cases h2 : m.sortBy = "priority" <;>
    simp [h1, h2, mem_arraySort] at h <;> exact hsub h

theorem priorityOrderMap_valid {p : String} (h : validPriority p) :
    priorityOrderMap p = some (priorityRank p) := by
  rcases h with rfl | rfl | rfl <;> decide

theorem priorityLe_eq_rank {a b : Task} (ha : validPriority a.priority)
    (hb : validPriority b.priority) :
    priorityLe a b =
      decide (priorityRank a.priority ≤ priorityRank b.priority) := by
  unfold priorityLe
  rw [priorityOrderMap_valid ha, priorityOrderMap_valid hb]

/-- C1: `getFilteredTasks` returns exactly the stored tasks that satisfy the
active predicates in conjunction: the case-insensitive substring match of the
search query on the title when the query is non-empty, the status filter
(`active` means not completed, `completed` means completed, anything else —
`all` included — imposes nothing), and equality with the priority filter when
it is set.  The operation is a pure function of the manager state in this
embedding, so it leaves the stored collection, filters, sort mode and search
query unchanged by construction. -/
theorem getFilteredTasks_exact_filtering (m : TaskManager) (t : Task)
    (hq : m.filters.priority ≠ some "") :
    t ∈ m.getFilteredTasks ↔
      t ∈ m.tasks ∧
      (m.searchQuery ≠ "" →
        strIncludes (jsToLower t.title) (jsToLower m.searchQuery) = true) ∧
      (m.filters.status = "active" → t.completed = false) ∧
      (m.filters.status = "completed" → t.completed = true) ∧
      (∀ p, m.filters.priority = some p → t.priority = p) := by
  rw [← mem_applyFilters m t hq]
  unfold TaskManager.getFilteredTasks
  by_cases h1 : m.sortBy = "dateCreated"
  · by_cases h2 : m.sortBy = "priority"
    · rw [h1] at h2
      exact absurd h2 (by decide)
    · simp [h1, h2, mem_arraySort]
  · by_cases h2 : m.sortBy = "priority" <;> simp [h1, h2, mem_arraySort]

/-- Witness for C1 at a concrete manager: search "milk", status `active` and
priority `high` all constrain the result at once. -/
theorem getFilteredTasks_exact_filtering_witness :
    wTask ∈ wManager.getFilteredTasks ↔
      wTask ∈ wManager.tasks ∧
      (wManager.searchQuery ≠ "" →
        strIncludes (jsToLower wTask.title) (jsToLower wManager.searchQuery) = true) ∧
      (wManager.filters.status = "active" → wTask.completed = false) ∧
      (wManager.filters.status = "completed" → wTask.completed = true) ∧
      (∀ p, wManager.filters.priority = some p → wTask.priority = p) :=
  getFilteredTasks_exact_filtering wManager wTask (by decide)

/-- C2: after the filter stages, `getFilteredTasks` orders the result by the
sort mode: descending by creation timestamp under `dateCreated`; ascending by
the rank high = 0, medium = 1, low = 2 under `priority` (for collections whose
priorities are ranked); unchanged pipeline order — a sublist of the stored
collection — under `custom`.  The specification example with A (high, older)
and B (low, newer) gives [B, A], [A, B] and insertion order respectively. -/
theorem getFilteredTasks_sort_modes (m : TaskManager) :
    (m.sortBy = "dateCreated" →
      List.Pairwise (fun a b => b.dateCreated ≤ a.dateCreated)
        m.getFilteredTasks) ∧
    (m.sortBy = "priority" → (∀ t ∈ m.tasks, validPriority t.priority) →
      List.Pairwise (fun a b => priorityRank a.priority ≤ priorityRank b.priority)
        m.getFilteredTasks) ∧
    (m.sortBy = "custom" →
      m.getFilteredTasks = applyFilters m ∧
      List.Sublist (applyFilters m) m.tasks) ∧
    (sortEx "dateCreated").getFilteredTasks = [exTaskB, exTaskA] ∧
    (sortEx "priority").getFilteredTasks = [exTaskA, exTaskB] ∧
    (sortEx "custom").getFilteredTasks = [exTaskA, exTaskB] := by
  refine ⟨?_, ?_, ?_, by decide, by decide, by decide⟩
  · intro h
    unfold TaskManager.getFilteredTasks
    rw [h]
    show List.Pairwise (fun a b => b.dateCreated ≤ a.dateCreated)
      (arraySort dateCreatedLe (applyFilters m))
    have hp := pairwise_arraySort dateCreatedLe (applyFilters m)
      (fun a _ b _ => by
        unfold dateCreatedLe
        rcases Nat.le_total b.dateCreated a.dateCreated with h' | h'
        · exact Or.inl (by simp [h'])
        · exact Or.inr (by simp [h']))
      (fun a _ b _ c _ hab hbc => by
        unfold dateCreatedLe at hab hbc ⊢
        simp only [decide_eq_true_eq] at hab hbc ⊢
        omega)
    exact hp.imp (fun hab => by
      unfold dateCreatedLe at hab
      exact of_decide_eq_true hab)
  · intro h hv
    unfold TaskManager.getFilteredTasks
    rw [h]
    show List.Pairwise (fun a b => priorityRank a.priority ≤ priorityRank b.priority)
      (arraySort priorityLe (applyFilters m))
    have hvf : ∀ t ∈ applyFilters m, validPriority t.priority :=
      fun t ht => hv t ((applyFilters_sublist m).subset ht)
    have hp := pairwise_arraySort priorityLe (applyFilters m)
      (fun a ha b hb => by
        rw [priorityLe_eq_rank (hvf a ha) (hvf b hb),
          priorityLe_eq_rank (hvf b hb) (hvf a ha)]
        rcases Nat.le_total (priorityRank a.priority) (priorityRank b.priority)
          with h' | h'
        · exact Or.inl (by simp [h'])
        · exact Or.inr (by simp [h']))
      (fun a ha b hb c hc hab hbc => by
        rw [priorityLe_eq_rank (hvf a ha) (hvf b hb)] at hab
        rw [priorityLe_eq_rank (hvf b hb) (hvf c hc)] at hbc
        rw [priorityLe_eq_rank (hvf a ha) (hvf c hc)]
        simp only [decide_eq_true_eq] at hab hbc ⊢
        omega)
    refine hp.imp_of_mem ?_
    intro a b ha hb hab
    have ha' := (mem_arraySort priorityLe a (applyFilters m)).mp ha
    have hb' := (mem_arraySort priorityLe b (applyFilters m)).mp hb
    rw [priorityLe_eq_rank (hvf a ha') (hvf b hb')] at hab
    exact of_decide_eq_true hab
  · intro h
    refine ⟨?_, applyFilters_sublist m⟩
    unfold TaskManager.getFilteredTasks
    rw [h]
    rfl

/-- Witness for C2: on the example collection, `dateCreated` mode is sorted
descending by timestamp and `priority` mode ascending by rank. -/
theorem getFilteredTasks_sort_modes_witness :
    List.Pairwise (fun a b => b.dateCreated ≤ a.dateCreated)
      (sortEx "dateCreated").getFilteredTasks ∧
    List.Pairwise (fun a b => priorityRank a.priority ≤ priorityRank b.priority)
      (sortEx "priority").getFilteredTasks ∧
    (sortEx "custom").getFilteredTasks = applyFilters (sortEx "custom") :=
  ⟨(getFilteredTasks_sort_modes (sortEx "dateCreated")).1 rfl,
   (getFilteredTasks_sort_modes (sortEx "priority")).2.1 rfl (by decide),
   ((getFilteredTasks_sort_modes (sortEx "custom")).2.2.1 rfl).1⟩

/-- C3: adding a task whose trimmed title is empty fails with a non-empty
error message, leaves the manager — collection, filters, sort mode and search
query — unchanged, and writes nothing to the persistence store. -/
theorem addTask_blank_title (m : TaskManager) (s : StorageState)
    (title dueDate priority : String) (now : Nat)
    (h : jsTrim title = "") :
    (m.addTask s title dueDate priority now).1.success = false ∧
    (∃ e, (m.addTask s title dueDate priority now).1.error = some e ∧ e ≠ "") ∧
    (m.addTask s title dueDate priority now).2.1 = m ∧
    (m.addTask s title dueDate priority now).2.2 = s := by
  unfold TaskManager.addTask
  rw [if_pos h]
  exact ⟨rfl, ⟨"Task title cannot be empty", rfl, by decide⟩, rfl, rfl⟩

/-- Witness for C3: a whitespace-only title is rejected and changes nothing. -/
theorem addTask_blank_title_witness :
    (emptyManager.addTask emptyStore "   " "" "medium" 99).1.success = false ∧
    (∃ e, (emptyManager.addTask emptyStore "   " "" "medium" 99).1.error =
      some e ∧ e ≠ "") ∧
    (emptyManager.addTask emptyStore "   " "" "medium" 99).2.1 = emptyManager ∧
    (emptyManager.addTask emptyStore "   " "" "medium" 99).2.2 = emptyStore :=
  addTask_blank_title emptyManager emptyStore "   " "" "medium" 99 (by decide)

/-- C4: adding a task with a non-blank trimmed title succeeds and appends
exactly one new task at the end of the collection — completed false, the
trimmed title, the given priority and due date, id and dateCreated both equal
to the current time — leaving every pre-existing task, the filters, the sort
mode and the search query unchanged, and persists the whole new snapshot. -/
theorem addTask_appends (m : TaskManager) (s : StorageState)
    (title dueDate priority : String) (now : Nat)
    (h : jsTrim title ≠ "") :
    (m.addTask s title dueDate priority now).1.success = true ∧
    (m.addTask s title dueDate priority now).2.1.tasks =
      m.tasks ++ [{ id := now, title := jsTrim title, completed := false,
                    priority := priority, dueDate := dueDate,
                    dateCreated := now }] ∧
    (m.addTask s title dueDate priority now).2.1.filters = m.filters ∧
    (m.addTask s title dueDate priority now).2.1.sortBy = m.sortBy ∧
    (m.addTask s title dueDate priority now).2.1.searchQuery = m.searchQuery ∧
    (m.addTask s title dueDate priority now).2.2 =
      TaskManager.save (m.addTask s title dueDate priority now).2.1 s := by
  unfold TaskManager.addTask
  rw [if_neg h]
  exact ⟨rfl, rfl, rfl, rfl, rfl, rfl⟩

/-- Witness for C4: adding "Buy milk" with empty due date and medium priority
to an empty collection appends exactly that task and persists it. -/
theorem addTask_appends_witness :
    (emptyManager.addTask emptyStore "Buy milk" "" "medium" 42).1.success = true ∧
    (emptyManager.addTask emptyStore "Buy milk" "" "medium" 42).2.1.tasks =
      emptyManager.tasks ++ [{ id := 42, title := jsTrim "Buy milk",
                                completed := false, priority := "medium",
                                dueDate := "", dateCreated := 42 }] ∧
    (emptyManager.addTask emptyStore "Buy milk" "" "medium" 42).2.1.filters =
      emptyManager.filters ∧
    (emptyManager.addTask emptyStore "Buy milk" "" "medium" 42).2.1.sortBy =
      emptyManager.sortBy ∧
    (emptyManager.addTask emptyStore "Buy milk" "" "medium" 42).2.1.searchQuery =
      emptyManager.searchQuery ∧
    (emptyManager.addTask emptyStore "Buy milk" "" "medium" 42).2.2 =
      TaskManager.save
        (emptyManager.addTask emptyStore "Buy milk" "" "medium" 42).2.1
        emptyStore :=
  addTask_appends emptyManager emptyStore "Buy milk" "" "medium" 42 (by decide)

/-- C10: only the title is validated at the addTask boundary: for every
priority string and every due-date string whatsoever — enum membership and
date syntax included — the add succeeds (given a non-blank trimmed title) and
the new last task stores both values verbatim. -/
theorem addTask_stores_any_priority_dueDate (m : TaskManager)
    (s : StorageState) (title dueDate priority : String) (now : Nat)
    (h : jsTrim title ≠ "") :
    (m.addTask s title dueDate priority now).1.success = true ∧
    (m.addTask s title dueDate priority now).2.1.tasks.getLast? =
      some { id := now, title := jsTrim title, completed := false,
             priority := priority, dueDate := dueDate, dateCreated := now } := by
  unfold TaskManager.addTask
  rw [if_neg h]
  refine ⟨rfl, ?_⟩
  simp

/-- Witness for C10: a priority outside the enum and a non-date due date are
accepted and stored verbatim. -/
theorem addTask_stores_any_priority_dueDate_witness :
    (emptyManager.addTask emptyStore "Do it" "not-a-date" "urgent!!" 5).1.success
      = true ∧
    (emptyManager.addTask emptyStore "Do it" "not-a-date" "urgent!!" 5).2.1.tasks.getLast?
      = some { id := 5, title := jsTrim "Do it", completed := false,
               priority := "urgent!!", dueDate := "not-a-date",
               dateCreated := 5 } :=
  addTask_stores_any_priority_dueDate emptyManager emptyStore "Do it"
    "not-a-date" "urgent!!" 5 (by decide)

theorem toggleFirst_toggleFirst (id : Nat) (l : List Task) :
    toggleFirst id (toggleFirst id l) = l := by
  induction l with
  | nil => rfl
  | cons t ts ih =>
      by_cases h : t.id = id
      · subst h
        simp [toggleFirst]
      · simp [toggleFirst, h, ih]

theorem toggleFirst_decomp (id : Nat) (l : List Task)
    (h : ∃ t ∈ l, t.id = id) :
    ∃ l₁ t l₂, l = l₁ ++ t :: l₂ ∧ (∀ u ∈ l₁, u.id ≠ id) ∧ t.id = id ∧
      toggleFirst id l = l₁ ++ { t with completed := !t.completed } :: l₂ := by
  induction l with
  | nil => simp at h
  | cons a as ih =>
      by_cases ha : a.id = id
      · refine ⟨[], a, as, rfl, by simp, ha, ?_⟩
        simp [toggleFirst, ha]
      · have h' : ∃ t ∈ as, t.id = id := by
          rcases h with ⟨t, ht, hid⟩
          rcases List.mem_cons.mp ht with rfl | ht
          · exact absurd hid ha
          · exact ⟨t, ht, hid⟩
        rcases ih h' with ⟨l₁, t, l₂, heq, hne, hid, htog⟩
        refine ⟨a :: l₁, t, l₂, by rw [heq]; rfl, ?_, hid, ?_⟩
        · intro u hu
          rcases List.mem_cons.mp hu with rfl | hu
          · exact ha
          · exact hne u hu
        · simp [toggleFirst, ha, htog]

theorem toggleFirst_absent (id : Nat) (l : List Task)
    (h : ∀ t ∈ l, t.id ≠ id) : toggleFirst id l = l := by
  induction l with
  | nil => rfl
  | cons a as ih =>
      simp only [toggleFirst, if_neg (h a (List.mem_cons_self a as))]
      rw [ih (fun t ht => h t (List.mem_cons_of_mem a ht))]

/-- C5: toggling an id that is present flips the completed flag of the (first)
matching task and changes nothing else — the tasks before and after it, the
filters, the sort mode and the search query are untouched — and a second
toggle of the same id restores the original collection (involution). -/
theorem toggleTask_flips (m : TaskManager) (s : StorageState) (id : Nat)
    (h : ∃ t ∈ m.tasks, t.id = id) :
    (∃ l₁ t l₂, m.tasks = l₁ ++ t :: l₂ ∧ (∀ u ∈ l₁, u.id ≠ id) ∧ t.id = id ∧
      (m.toggleTask s id).1.tasks =
        l₁ ++ { t with completed := !t.completed } :: l₂) ∧
    (m.toggleTask s id).1.filters = m.filters ∧
    (m.toggleTask s id).1.sortBy = m.sortBy ∧
    (m.toggleTask s id).1.searchQuery = m.searchQuery ∧
    ((m.toggleTask s id).1.toggleTask (m.toggleTask s id).2 id).1.tasks =
      m.tasks := by
  refine ⟨?_, rfl, rfl, rfl, ?_⟩
  · exact toggleFirst_decomp id m.tasks h
  · show toggleFirst id (toggleFirst id m.tasks) = m.tasks
    exact toggleFirst_toggleFirst id m.tasks

/-- Witness for C5 at the two-task example collection and id 1. -/
theorem toggleTask_flips_witness :
    (∃ l₁ t l₂, (sortEx "custom").tasks = l₁ ++ t :: l₂ ∧
      (∀ u ∈ l₁, u.id ≠ 1) ∧ t.id = 1 ∧
      ((sortEx "custom").toggleTask emptyStore 1).1.tasks =
        l₁ ++ { t with completed := !t.completed } :: l₂) ∧
    ((sortEx "custom").toggleTask emptyStore 1).1.filters =
      (sortEx "custom").filters ∧
    ((sortEx "custom").toggleTask emptyStore 1).1.sortBy =
      (sortEx "custom").sortBy ∧
    ((sortEx "custom").toggleTask emptyStore 1).1.searchQuery =
      (sortEx "custom").searchQuery ∧
    (((sortEx "custom").toggleTask emptyStore 1).1.toggleTask
      ((sortEx "custom").toggleTask emptyStore 1).2 1).1.tasks =
      (sortEx "custom").tasks :=
  toggleTask_flips (sortEx "custom") emptyStore 1 (by decide)

/-- C6 (amended): setFilter on `status` is exclusive-select (always takes the
new value, leaving the priority filter alone); on `priority` it is
toggle-select: a value different from the current one is selected, the
currently selected value clears to none, and two successive calls with the
same value leave the filter cleared whenever that value was not already
selected (if it was, the pair first clears and then re-selects).  Both kinds
persist the updated snapshot. -/
theorem setFilter_semantics (m : TaskManager) (s : StorageState) (v : String) :
    (m.setFilter s "status" v).1.filters.status = v ∧
    (m.setFilter s "status" v).1.filters.priority = m.filters.priority ∧
    (m.filters.priority ≠ some v →
      (m.setFilter s "priority" v).1.filters.priority = some v) ∧
    (m.filters.priority = some v →
      (m.setFilter s "priority" v).1.filters.priority = none) ∧
    (m.filters.priority ≠ some v →
      ((m.setFilter s "priority" v).1.setFilter (m.setFilter s "priority" v).2
        "priority" v).1.filters.priority = none) ∧
    (m.setFilter s "status" v).2 =
      TaskManager.save (m.setFilter s "status" v).1 s ∧
    (m.setFilter s "priority" v).2 =
      TaskManager.save (m.setFilter s "priority" v).1 s := by
  refine ⟨rfl, rfl, ?_, ?_, ?_, rfl, rfl⟩
  · intro h
    show (if m.filters.priority = some v then none else some v) = some v
    rw [if_neg h]
  · intro h
    show (if m.filters.priority = some v then none else some v) = none
    rw [if_pos h]
  · intro h
    show (if (if m.filters.priority = some v then none else some v) = some v
      then none else some v) = none
    rw [if_neg h, if_pos rfl]

/-- Witness for C6 at the default state: selecting `high` once sets the
priority filter, selecting it twice clears it, and a status selection takes
the new value and persists. -/
theorem setFilter_semantics_witness :
    (emptyManager.setFilter emptyStore "status" "active").1.filters.status =
      "active" ∧
    (emptyManager.setFilter emptyStore "status" "active").1.filters.priority =
      emptyManager.filters.priority ∧
    (emptyManager.filters.priority ≠ some "active" →
      (emptyManager.setFilter emptyStore "priority" "active").1.filters.priority =
        some "active") ∧
    (emptyManager.filters.priority = some "active" →
      (emptyManager.setFilter emptyStore "priority" "active").1.filters.priority =
        none) ∧
    (emptyManager.filters.priority ≠ some "active" →
      ((emptyManager.setFilter emptyStore "priority" "active").1.setFilter
        (emptyManager.setFilter emptyStore "priority" "active").2
        "priority" "active").1.filters.priority = none) ∧
    (emptyManager.setFilter emptyStore "status" "active").2 =
      TaskManager.save (emptyManager.setFilter emptyStore "status" "active").1
        emptyStore ∧
    (emptyManager.setFilter emptyStore "priority" "active").2 =
      TaskManager.save (emptyManager.setFilter emptyStore "priority" "active").1
        emptyStore :=
  setFilter_semantics emptyManager emptyStore "active"

/-- Counterexample to C6 as universally stated: when the priority filter is
already `high`, two successive `setFilter('priority', 'high')` calls do not
leave the filter cleared — the first call clears it and the second re-selects
it. -/
theorem setFilter_twice_not_always_cleared :
    ¬ (((prioHighManager.setFilter emptyStore "priority" "high").1.setFilter
        (prioHighManager.setFilter emptyStore "priority" "high").2
        "priority" "high").1.filters.priority = none) := by
  decide

/-- C7: saving the snapshot and constructing a fresh manager from the store
reproduces the task collection, the filter state and the sort mode, while the
search query — never persisted — is the empty string in the fresh instance.
The sort mode ranges over the data model's enum; the constructor's
falsy-string fallback would remap only the empty string, which is not a sort
mode. -/
theorem save_init_roundtrip (m : TaskManager) (s : StorageState)
    (h : m.sortBy = "custom" ∨ m.sortBy = "dateCreated" ∨ m.sortBy = "priority") :
    TaskManager.init (m.save s) =
      { tasks := m.tasks, filters := m.filters, sortBy := m.sortBy,
        searchQuery := "" } := by
  have hne : ¬ (m.sortBy = "") := by
    rcases h with h | h | h <;> rw [h] <;> decide
  unfold TaskManager.init TaskManager.save Storage.saveData Storage.loadData
  simp [hne]

/-- Witness for C7: a manager with a live search query round-trips with the
query reset and everything else intact. -/
theorem save_init_roundtrip_witness :
    TaskManager.init (wManager.save emptyStore) =
      { tasks := wManager.tasks, filters := wManager.filters,
        sortBy := wManager.sortBy, searchQuery := "" } :=
  save_init_roundtrip wManager emptyStore (Or.inl rfl)

/-- C8: removing or toggling an id that no task carries leaves the collection
(and the whole manager) unchanged, yet both operations still write the full
snapshot to the persistence store — the persist is unconditional even on the
no-op. -/
theorem absent_id_noop_but_persists (m : TaskManager) (s : StorageState)
    (id : Nat) (h : ∀ t ∈ m.tasks, t.id ≠ id) :
    (m.removeTask s id).1 = m ∧
    (m.removeTask s id).2.data =
      some { tasks := m.tasks, filters := m.filters, sortBy := m.sortBy } ∧
    (m.toggleTask s id).1 = m ∧
    (m.toggleTask s id).2.data =
      some { tasks := m.tasks, filters := m.filters, sortBy := m.sortBy } := by
  have hf : m.tasks.filter (fun t => t.id != id) = m.tasks := by
    rw [List.filter_eq_self]
    intro t ht
    simpa using h t ht
  have ht : toggleFirst id m.tasks = m.tasks := toggleFirst_absent id m.tasks h
  refine ⟨?_, ?_, ?_, ?_⟩
  · show { m with tasks := m.tasks.filter fun t => t.id != id } = m
    rw [hf]
  · unfold TaskManager.removeTask TaskManager.save Storage.saveData
    rw [hf]
  · show { m with tasks := toggleFirst id m.tasks } = m
    rw [ht]
  · unfold TaskManager.toggleTask TaskManager.save Storage.saveData
    rw [ht]

/-- Witness for C8: id 99 is absent from the example collection; both
operations are no-ops that still persist the snapshot. -/
theorem absent_id_noop_but_persists_witness :
    ((sortEx "custom").removeTask emptyStore 99).1 = sortEx "custom" ∧
    ((sortEx "custom").removeTask emptyStore 99).2.data =
      some { tasks := (sortEx "custom").tasks,
             filters := (sortEx "custom").filters,
             sortBy := (sortEx "custom").sortBy } ∧
    ((sortEx "custom").toggleTask emptyStore 99).1 = sortEx "custom" ∧
    ((sortEx "custom").toggleTask emptyStore 99).2.data =
      some { tasks := (sortEx "custom").tasks,
             filters := (sortEx "custom").filters,
             sortBy := (sortEx "custom").sortBy } :=
  absent_id_noop_but_persists (sortEx "custom") emptyStore 99 (by decide)

theorem toggleFirst_map_id (id : Nat) (l : List Task) :
    (toggleFirst id l).map Task.id = l.map Task.id := by
  induction l with
  | nil => rfl
  | cons t ts ih =>
      by_cases h : t.id = id
      · simp [toggleFirst, h]
      · simp [toggleFirst, h, ih]

/-- C9 (amended): in every state reachable from a fresh install — bootstrap,
then any operation sequence in which each add happens at a current time that
no stored task already carries as id — the id field uniquely identifies a
task: the collection's ids have no duplicates.  Without that timing
assumption the invariant fails on the code (two adds in the same
millisecond); see the counterexample. -/
theorem reachable_ids_nodup (m : TaskManager) (s : StorageState)
    (h : Reachable m s) : (m.tasks.map Task.id).Nodup := by
  induction h with
  | boot now =>
      show ((sampleTasks now).map Task.id).Nodup
      simp [sampleTasks]
  | add m s title dueDate priority now h hfresh ih =>
      by_cases hb : jsTrim title = ""
      · have he : (m.addTask s title dueDate priority now).2.1 = m := by
          unfold TaskManager.addTask
          rw [if_pos hb]
        rw [he]
        exact ih
      · have he : (m.addTask s title dueDate priority now).2.1.tasks =
            m.tasks ++ [{ id := now, title := jsTrim title, completed := false,
                          priority := priority, dueDate := dueDate,
                          dateCreated := now }] := by
          unfold TaskManager.addTask
          rw [if_neg hb]
        rw [he, List.map_append, List.map_cons, List.map_nil,
          List.nodup_append]
        refine ⟨ih, List.nodup_singleton _, ?_⟩
        intro a ha hmem
        have hnow : a = now := by simpa using hmem
        subst hnow
        rcases List.mem_map.mp ha with ⟨t, ht, hid⟩
        exact hfresh t ht hid
  | remove m s id h ih =>
      show ((m.tasks.filter fun t => t.id != id).map Task.id).Nodup
      exact ih.sublist ((List.filter_sublist m.tasks).map Task.id)
  | toggle m s id h ih =>
      show ((toggleFirst id m.tasks).map Task.id).Nodup
      rw [toggleFirst_map_id]
      exact ih
  | search m s q h ih => exact ih
  | sortSet m s v h ih => exact ih
  | filterSet m s ty v h ih => exact ih

/-- Witness for C9: the bootstrapped state itself has distinct ids. -/
theorem reachable_ids_nodup_witness :
    (((TaskManager.init (Storage.initializeSampleData emptyStore 0)).tasks).map
      Task.id).Nodup :=
  reachable_ids_nodup (TaskManager.init (Storage.initializeSampleData emptyStore 0))
    (Storage.initializeSampleData emptyStore 0) (Reachable.boot 0)

/-- Counterexample to C9 as stated: two adds performed within the same
millisecond (`Date.now()` returning 5 both times) are a legal operation
sequence, and they produce two distinct tasks with the same id 5 — the id
field then no longer uniquely identifies a task. -/
theorem duplicate_ids_reachable :
    ¬ ((addTwice.2.1.tasks.map Task.id).Nodup) := by decide

end TodoApp
